import Mathlib

/-!
Verification of the boot-image core of DualBootPatcher (libmbbootimg):
the MTK writer codec (`mtk_writer.cpp`) and the Android/Bump reader codec
(`android_reader.cpp`), shallowly embedded over a pure byte-store model.

External collaborators (the abstract file, the SHA-1 primitive, constants
defined in headers that only declare sizes) are modelled as parameters or
as definitions marked `Modelled from the spec:`.
-/

set_option maxRecDepth 100000

namespace DBP


/-- The modulus of `uint32_t` arithmetic, 2^32. -/
def U32MOD : Nat := 4294967296

/-- The value `UINT32_MAX`. -/
def U32MAX : Nat := 4294967295

/-- The value `SIZE_MAX` on the 64-bit targets the code runs on. -/
def SIZEMAX : Nat := 18446744073709551615

/-- The Android boot magic `"ANDROID!"` as bytes (spec section 3). -/
def BOOT_MAGIC : List Nat := [65, 78, 68, 82, 79, 73, 68, 33]

/-- The magic length `BOOT_MAGIC_SIZE` (8 bytes, spec section 3). -/
def BOOT_MAGIC_SIZE : Nat := 8

/-- Modelled from the spec: `sizeof(AndroidHeader)` from the section 3 layout:
8-byte magic + 10 32-bit fields + name[16] + cmdline[512] + id (32 bytes). -/
def sizeofAndroidHeader : Nat := 608

/-- Modelled from the spec: `sizeof(MtkHeader)`; the MTK sub-header is a
512-byte block (spec glossary and section 3). -/
def sizeofMtkHeader : Nat := 512

/-- The constant `SHA_DIGEST_LENGTH`: a SHA-1 digest is 20 bytes. -/
def SHA_DIGEST_LENGTH : Nat := 20

/-- Little-endian encoding of a value stored into a `uint32_t`
(as done by `mb_htole32` followed by writing the 4 bytes). -/
def le32 (n : Nat) : List Nat :=
  [n % 256, n / 256 % 256, n / 65536 % 256, n / 16777216 % 256]

/-- Decode 4 little-endian bytes (for parsing on-disk headers). -/
def rdLE32 (l : List Nat) : Nat :=
  match l with
  | b0 :: b1 :: b2 :: b3 :: _ => b0 + 256 * b1 + 65536 * b2 + 16777216 * b3
  | _ => 0

/-- The abstract seekable byte store (spec section 2 item 1): file contents
plus the current read/write position. -/
structure MFile where
  data : List Nat
  pos : Nat
deriving DecidableEq

/-- Bytes available starting at absolute offset `off`, at most `n` of them
(`read_fully` semantics: a short result only at EOF). -/
def MFile.readAt (f : MFile) (off n : Nat) : List Nat :=
  (f.data.drop off).take n

/-- Write `bytes` at absolute offset `off`, zero-filling any gap past EOF
(POSIX write-after-seek semantics); position ends after the written bytes. -/
def MFile.writeAt (f : MFile) (off : Nat) (bytes : List Nat) : MFile :=
  let base := if f.data.length < off
    then f.data ++ List.replicate (off - f.data.length) 0
    else f.data
  ⟨base.take off ++ bytes ++ base.drop (off + bytes.length),
   off + bytes.length⟩

/-- The operation `truncate(len)`: shrink or zero-extend the contents; the position is
not moved. -/
def MFile.truncate (f : MFile) (len : Nat) : MFile :=
  ⟨if len ≤ f.data.length
    then f.data.take len
    else f.data ++ List.replicate (len - f.data.length) 0,
   f.pos⟩

/-- Entry/segment types (`ENTRY_TYPE_*`). -/
inductive EntryType where
  | kernel
  | ramdisk
  | secondboot
  | deviceTree
  | mtkKernelHeader
  | mtkRamdiskHeader
deriving DecidableEq

/-- One row of the segment table: `(type, offset, size, can_truncate)`.
Sizes and offsets are the 64-bit quantities of the source. -/
structure SegmentEntry where
  type : EntryType
  offset : Nat
  size : Nat
  canTruncate : Bool
deriving DecidableEq

/-- The Android boot image header in host byte order (`AndroidHeader`).
Multi-byte integer fields are `uint32_t` values (kept reduced mod 2^32 by
the operations that assign them); `magic`, `name`, `cmdline`, `id` are the
fixed-size byte arrays of the struct. -/
structure AndroidHeader where
  magic : List Nat
  kernel_size : Nat
  kernel_addr : Nat
  ramdisk_size : Nat
  ramdisk_addr : Nat
  second_size : Nat
  second_addr : Nat
  tags_addr : Nat
  page_size : Nat
  dt_size : Nat
  unused : Nat
  name : List Nat
  cmdline : List Nat
  id : List Nat
deriving DecidableEq

/-- Fix a byte array to a declared struct-field width (arrays in the C
struct have fixed length; the model pads with zeros / truncates). -/
def fixWidth (l : List Nat) (n : Nat) : List Nat :=
  (l ++ List.replicate n 0).take n

/-- Modelled from the spec: serialization of `AndroidHeader` after
`android_fix_header_byte_order` (all integers little-endian), 608 bytes:
magic, ten `uint32_t` fields, `name[16]`, `cmdline[512]`, `id` (32 bytes). -/
def serializeAndroidHeader (h : AndroidHeader) : List Nat :=
  fixWidth h.magic 8
    ++ le32 h.kernel_size ++ le32 h.kernel_addr
    ++ le32 h.ramdisk_size ++ le32 h.ramdisk_addr
    ++ le32 h.second_size ++ le32 h.second_addr
    ++ le32 h.tags_addr ++ le32 h.page_size
    ++ le32 h.dt_size ++ le32 h.unused
    ++ fixWidth h.name 16 ++ fixWidth h.cmdline 512 ++ fixWidth h.id 32

/-- Modelled from the spec: parsing of the 608-byte on-disk header
(`memcpy` + `android_fix_header_byte_order`), inverse of serialization. -/
def parseAndroidHeader (b : List Nat) : AndroidHeader where
  magic := b.take 8
  kernel_size := rdLE32 (b.drop 8)
  kernel_addr := rdLE32 (b.drop 12)
  ramdisk_size := rdLE32 (b.drop 16)
  ramdisk_addr := rdLE32 (b.drop 20)
  second_size := rdLE32 (b.drop 24)
  second_addr := rdLE32 (b.drop 28)
  tags_addr := rdLE32 (b.drop 32)
  page_size := rdLE32 (b.drop 36)
  dt_size := rdLE32 (b.drop 40)
  unused := rdLE32 (b.drop 44)
  name := (b.drop 48).take 16
  cmdline := (b.drop 64).take 512
  id := (b.drop 576).take 32

/-- Top-level return codes (`RET_OK` / `RET_WARN` / `RET_FAILED` /
`RET_FATAL`); `RET_WARN` is the code behind the `UNKNOWN_OPTION`
and `CANNOT_WIN` outcomes. -/
inductive Ret where
  | ok
  | warn
  | failed
  | fatal
deriving DecidableEq

/-! ## MTK writer (`mtk_writer.cpp`) -/

/-- Writer context `MtkWriterCtx`: Android header under construction, the
table and current-entry pointer of the segment writer, and the captured file
size guarded by `have_file_size`. -/
structure MtkWriterCtx where
  hdr : AndroidHeader
  entries : List SegmentEntry
  cur : Option SegmentEntry
  have_file_size : Bool
  file_size : Nat
deriving DecidableEq

/-- Source `mtk_writer_finish_entry`, lines 333-362: the validation and header
update performed after the segment writer has finished the entry `e`
(which is then `seg.entry()`).  `uint32_t` header fields truncate the
64-bit entry size mod 2^32. -/
def mtk_writer_finish_entry (e : SegmentEntry) (hdr : AndroidHeader) :
    Ret × AndroidHeader :=
  if (e.type = EntryType.kernel ∨ e.type = EntryType.ramdisk)
      ∧ e.size = U32MAX - sizeofMtkHeader then
    (Ret.fatal, hdr)
  else if (e.type = EntryType.mtkKernelHeader
        ∨ e.type = EntryType.mtkRamdiskHeader)
      ∧ e.size ≠ sizeofMtkHeader then
    (Ret.fatal, hdr)
  else
    match e.type with
    | EntryType.kernel =>
        (Ret.ok, { hdr with kernel_size := (e.size + sizeofMtkHeader) % U32MOD })
    | EntryType.ramdisk =>
        (Ret.ok, { hdr with ramdisk_size := (e.size + sizeofMtkHeader) % U32MOD })
    | EntryType.secondboot =>
        (Ret.ok, { hdr with second_size := e.size % U32MOD })
    | EntryType.deviceTree =>
        (Ret.ok, { hdr with dt_size := e.size % U32MOD })
    | _ => (Ret.ok, hdr)

/-! ## Android / Bump reader (`android_reader.cpp`)

`MAX_HEADER_OFFSET` and the Samsung SEAndroid / Bump trailer magics are
declared in headers outside the two presented files; the spec pins neither
their numeric values nor the magic bytes, so they are parameters of the
definitions below, universally quantified in the theorems. -/

/-- Reader context `AndroidReaderCtx`: decoded header, the offsets found by
probing with their `have_*` flags, the `allow_truncated_dt` option and the
segment table built by `read_header`. -/
structure AndroidReaderCtx where
  hdr : AndroidHeader
  header_offset : Nat
  have_header_offset : Bool
  samsung_offset : Nat
  have_samsung_offset : Bool
  bump_offset : Nat
  have_bump_offset : Bool
  allow_truncated_dt : Bool
  segEntries : List SegmentEntry
deriving DecidableEq

/-- Source `mb_memmem`: index of the first occurrence of `needle` in `haystack`,
if any. -/
def mb_memmem (haystack needle : List Nat) : Option Nat :=
  match haystack with
  | [] => if needle = [] then some 0 else none
  | _ :: t =>
    if needle.isPrefixOf haystack then some 0
    else (mb_memmem t needle).map (· + 1)

/-- Source `find_android_header`, lines 75-130: read the first
`max_header_offset + sizeof(AndroidHeader)` bytes, search them for
`BOOT_MAGIC`, and decode the header found there.  `none` covers the two
`RET_WARN` outcomes (magic absent, or header cut off by EOF); the
`max_header_offset > MAX_HEADER_OFFSET` argument check cannot fire since
every caller passes `MAX_HEADER_OFFSET` itself. -/
def find_android_header (maxHeaderOffset : Nat) (file : MFile) :
    Option (AndroidHeader × Nat) :=
  let buf := file.data.take (maxHeaderOffset + sizeofAndroidHeader)
  match mb_memmem buf BOOT_MAGIC with
  | none => none
  | some offset =>
    if buf.length - offset < sizeofAndroidHeader then none
    else some (parseAndroidHeader (buf.drop offset), offset)

/-- Modelled from the spec: `align_page_size` (`align_p.h`) returns the
padding that takes `pos` to the next multiple of `page_size`
(spec section 3: segment `k+1` begins at `ceil(end_of(k)/P)*P`). -/
def align_page_size (pos page : Nat) : Nat :=
  if page = 0 then 0 else (page - pos % page) % page

/-- The position `pos` aligned up to the next multiple of `page`. -/
def alignUp (pos page : Nat) : Nat :=
  pos + align_page_size pos page

/-- Tail offset where the trailer magics are expected
(`find_samsung_seandroid_magic` / `find_bump_magic`, lines 156-175 and
227-246): page_size, then each section size followed by page alignment. -/
def tailOffset (hdr : AndroidHeader) : Nat :=
  let pos := hdr.page_size
  let pos := alignUp (pos + hdr.kernel_size) hdr.page_size
  let pos := alignUp (pos + hdr.ramdisk_size) hdr.page_size
  let pos := alignUp (pos + hdr.second_size) hdr.page_size
  alignUp (pos + hdr.dt_size) hdr.page_size

/-- Source `find_samsung_seandroid_magic`, lines 151-201: seek to the tail
offset,
read `SAMSUNG_SEANDROID_MAGIC_SIZE` bytes and compare with the magic. -/
def find_samsung_seandroid_magic (magic : List Nat) (hdr : AndroidHeader)
    (file : MFile) : Option Nat :=
  let pos := tailOffset hdr
  let buf := file.readAt pos magic.length
  if buf.length = magic.length ∧ buf = magic then some pos else none

/-- Source `find_bump_magic`, lines 222-271: identical to the Samsung probe
with
the Bump magic. -/
def find_bump_magic (magic : List Nat) (hdr : AndroidHeader)
    (file : MFile) : Option Nat :=
  let pos := tailOffset hdr
  let buf := file.readAt pos magic.length
  if buf.length = magic.length ∧ buf = magic then some pos else none

/-- Result of a bid: a matched-bit score, or `RET_WARN`, the code behind
`CANNOT_WIN`.  (The modelled file never fails, so `RET_FAILED`/`RET_FATAL`
do not arise.) -/
inductive BidResult where
  | score (bits : Nat)
  | cannotWin
deriving DecidableEq

/-- Source `android_reader_bid`, lines 312-352. -/
def android_reader_bid (maxHeaderOffset : Nat) (samsungMagic : List Nat)
    (ctx : AndroidReaderCtx) (best_bid : Int) (file : MFile) :
    BidResult × AndroidReaderCtx :=
  if best_bid ≥ ((BOOT_MAGIC_SIZE + samsungMagic.length : Nat) * 8 : Nat) then
    (BidResult.cannotWin, ctx)
  else
    match find_android_header maxHeaderOffset file with
    | none => (BidResult.score 0, ctx)
    | some (hdr, off) =>
      let ctx1 := { ctx with hdr := hdr, header_offset := off,
                             have_header_offset := true }
      match find_samsung_seandroid_magic samsungMagic hdr file with
      | some soff =>
        (BidResult.score (BOOT_MAGIC_SIZE * 8 + samsungMagic.length * 8),
         { ctx1 with samsung_offset := soff, have_samsung_offset := true })
      | none => (BidResult.score (BOOT_MAGIC_SIZE * 8), ctx1)

/-- Source `bump_reader_bid`, lines 363-402. -/
def bump_reader_bid (maxHeaderOffset : Nat) (bumpMagic : List Nat)
    (ctx : AndroidReaderCtx) (best_bid : Int) (file : MFile) :
    BidResult × AndroidReaderCtx :=
  if best_bid ≥ ((BOOT_MAGIC_SIZE + bumpMagic.length : Nat) * 8 : Nat) then
    (BidResult.cannotWin, ctx)
  else
    match find_android_header maxHeaderOffset file with
    | none => (BidResult.score 0, ctx)
    | some (hdr, off) =>
      let ctx1 := { ctx with hdr := hdr, header_offset := off,
                             have_header_offset := true }
      match find_bump_magic bumpMagic hdr file with
      | some boff =>
        (BidResult.score (BOOT_MAGIC_SIZE * 8 + bumpMagic.length * 8),
         { ctx1 with bump_offset := boff, have_bump_offset := true })
      | none => (BidResult.score (BOOT_MAGIC_SIZE * 8), ctx1)

/-- Lower-case an ASCII byte, as C `tolower` in the default locale. -/
def asciiLower (c : Nat) : Nat :=
  if 65 ≤ c ∧ c ≤ 90 then c + 32 else c

/-- Equality after lower-casing both strings, as `strcasecmp(a, b) == 0`. -/
def strcaseEq (a b : List Nat) : Bool :=
  a.map asciiLower = b.map asciiLower

/-- Source `android_reader_set_option`, lines 404-421.  Key and value are
the
bytes of the C strings.  The non-`"strict"` branch returns `RET_WARN`,
which the spec surfaces as `UNKNOWN_OPTION`. -/
def android_reader_set_option (ctx : AndroidReaderCtx)
    (key value : List Nat) : Ret × AndroidReaderCtx :=
  if key = [115, 116, 114, 105, 99, 116] then
    let strict := strcaseEq value [116, 114, 117, 101]
      || strcaseEq value [121, 101, 115]
      || strcaseEq value [121]
      || value = [49]
    (Ret.ok, { ctx with allow_truncated_dt := !strict })
  else
    (Ret.warn, ctx)

/-- Segment-table construction of `android_reader_read_header`,
lines 446-507: offsets accumulated with page alignment, then KERNEL and
RAMDISK always added, SECONDBOOT and DEVICE_TREE only when non-empty. -/
def androidReaderSegments (header_offset : Nat) (hdr : AndroidHeader)
    (allow_truncated_dt : Bool) : List SegmentEntry :=
  let pos := header_offset + sizeofAndroidHeader
  let pos := pos + align_page_size pos hdr.page_size
  let kernel_offset := pos
  let pos := pos + hdr.kernel_size
  let pos := pos + align_page_size pos hdr.page_size
  let ramdisk_offset := pos
  let pos := pos + hdr.ramdisk_size
  let pos := pos + align_page_size pos hdr.page_size
  let second_offset := pos
  let pos := pos + hdr.second_size
  let pos := pos + align_page_size pos hdr.page_size
  let dt_offset := pos
  [⟨EntryType.kernel, kernel_offset, hdr.kernel_size, false⟩,
   ⟨EntryType.ramdisk, ramdisk_offset, hdr.ramdisk_size, false⟩]
  ++ (if 0 < hdr.second_size then
      [⟨EntryType.secondboot, second_offset, hdr.second_size, false⟩] else [])
  ++ (if 0 < hdr.dt_size then
      [⟨EntryType.deviceTree, dt_offset, hdr.dt_size, allow_truncated_dt⟩]
      else [])

/-- Source `android_reader_read_header`, lines 423-510: scan lazily when no
bid
cached the header (`have_header_offset` false), then populate the logical
header (`android_set_header`; its setters accept every field the format
declares, so it succeeds) and rebuild the segment table.  `none` is the
scan failing (`ret < 0` path). -/
def android_reader_read_header (maxHeaderOffset : Nat)
    (ctx : AndroidReaderCtx) (file : MFile) : Option AndroidReaderCtx :=
  let scanned : Option AndroidReaderCtx :=
    if ctx.have_header_offset then some ctx
    else
      match find_android_header maxHeaderOffset file with
      | none => none
      | some (hdr, off) =>
        some { ctx with hdr := hdr, header_offset := off,
                        have_header_offset := true }
  match scanned with
  | none => none
  | some ctx1 =>
    some { ctx1 with
      segEntries := androidReaderSegments ctx1.header_offset ctx1.hdr
        ctx1.allow_truncated_dt }

/-- Source `mb_bi_reader_enable_format_android`, lines 555-575: the freshly
allocated, zero-initialized context with `allow_truncated_dt` set to true
by default. -/
def mb_bi_reader_enable_format_android : AndroidReaderCtx :=
  { hdr := AndroidHeader.mk (List.replicate 8 0) 0 0 0 0 0 0 0 0 0 0
      (List.replicate 16 0) (List.replicate 512 0) (List.replicate 32 0),
    header_offset := 0, have_header_offset := false,
    samsung_offset := 0, have_samsung_offset := false,
    bump_offset := 0, have_bump_offset := false,
    allow_truncated_dt := true,
    segEntries := [] }

/-! ## MTK writer finalization (`mtk_writer.cpp` lines 49-177, 367-452)

`offsetof(MtkHeader, size)` comes from a header outside the two presented
files (the spec says only that the size field sits at a known offset), so
it is a parameter `mtkSizeOff`; likewise the external SHA-1 primitive is a
parameter `sha1` (a function from the fed byte sequence to the 20-byte
digest). -/

/-- The 10 KiB read loop of `_mtk_compute_sha1` (lines 111-132): read
`remain` bytes starting at `offset`, in chunks of at most 10240 bytes,
failing like the source (`Unexpected EOF`) when a chunk comes back
short. -/
def readChunked (data : List Nat) (offset remain : Nat) :
    Option (List Nat) :=
  if _h : remain = 0 then some []
  else
    let to_read := min remain 10240
    let chunk := (data.drop offset).take to_read
    if chunk.length = to_read then
      (readChunked data (offset + to_read) (remain - to_read)).map
        (chunk ++ ·)
    else none
termination_by remain
decreasing_by
  omega

/-- The per-entry loop of `_mtk_compute_sha1` (lines 99-168), returning
the byte sequence fed to `SHA1_Update`: per segment the payload followed by
its little-endian 32-bit size term; MTK sub-header sizes are only
remembered (as `uint32_t`, hence mod 2^32) for the kernel/ramdisk terms,
and a device tree of size 0 contributes no term. -/
def mtkSha1Go (data : List Nat) (entries : List SegmentEntry)
    (kernel_mtkhdr_size ramdisk_mtkhdr_size : Nat) : Option (List Nat) :=
  match entries with
  | [] => some []
  | e :: rest =>
    match readChunked data e.offset e.size with
    | none => none
    | some payload =>
      match e.type with
      | EntryType.mtkKernelHeader =>
        (mtkSha1Go data rest (e.size % U32MOD) ramdisk_mtkhdr_size).map
          (payload ++ ·)
      | EntryType.mtkRamdiskHeader =>
        (mtkSha1Go data rest kernel_mtkhdr_size (e.size % U32MOD)).map
          (payload ++ ·)
      | EntryType.kernel =>
        (mtkSha1Go data rest kernel_mtkhdr_size ramdisk_mtkhdr_size).map
          (payload ++ le32 (e.size + kernel_mtkhdr_size) ++ ·)
      | EntryType.ramdisk =>
        (mtkSha1Go data rest kernel_mtkhdr_size ramdisk_mtkhdr_size).map
          (payload ++ le32 (e.size + ramdisk_mtkhdr_size) ++ ·)
      | EntryType.secondboot =>
        (mtkSha1Go data rest kernel_mtkhdr_size ramdisk_mtkhdr_size).map
          (payload ++ le32 e.size ++ ·)
      | EntryType.deviceTree =>
        if e.size = 0 then
          (mtkSha1Go data rest kernel_mtkhdr_size ramdisk_mtkhdr_size).map
            (payload ++ ·)
        else
          (mtkSha1Go data rest kernel_mtkhdr_size ramdisk_mtkhdr_size).map
            (payload ++ le32 e.size ++ ·)

/-- Source `_mtk_compute_sha1` (lines 82-177) digests exactly this stream:
the
digest it stores is `sha1` applied to the result. -/
def mtk_compute_sha1_stream (entries : List SegmentEntry) (file : MFile) :
    Option (List Nat) :=
  mtkSha1Go file.data entries 0 0

/-- Source `_mtk_header_update_size` (lines 49-80): overflow-check the seek
target, then write the little-endian `uint32_t` size at
`offset + offsetof(MtkHeader, size)`.  `none` is the fatal overflow
rejection; in the model the file itself never fails. -/
def _mtk_header_update_size (mtkSizeOff : Nat) (file : MFile)
    (offset size : Nat) : Option MFile :=
  if offset > SIZEMAX - mtkSizeOff then none
  else some (file.writeAt (offset + mtkSizeOff) (le32 size))

/-- The MTK sub-header patch loop of `mtk_writer_close` (lines 397-417):
write `kernel_size - sizeof(MtkHeader)` (`uint32_t` arithmetic, hence the
mod-2^32 form) into the MTK kernel header segment and analogously for the
ramdisk; other segment types are skipped. -/
def patchMtkSizes (mtkSizeOff : Nat) (hdr : AndroidHeader)
    (entries : List SegmentEntry) (file : MFile) : Option MFile :=
  match entries with
  | [] => some file
  | e :: rest =>
    match e.type with
    | EntryType.mtkKernelHeader =>
      match _mtk_header_update_size mtkSizeOff file e.offset
          ((hdr.kernel_size + U32MOD - sizeofMtkHeader) % U32MOD) with
      | none => none
      | some f2 => patchMtkSizes mtkSizeOff hdr rest f2
    | EntryType.mtkRamdiskHeader =>
      match _mtk_header_update_size mtkSizeOff file e.offset
          ((hdr.ramdisk_size + U32MOD - sizeofMtkHeader) % U32MOD) with
      | none => none
      | some f2 => patchMtkSizes mtkSizeOff hdr rest f2
    | _ => patchMtkSizes mtkSizeOff hdr rest file

/-- Source `mtk_writer_close` (lines 367-452).  The capture of
`seek(0, SEEK_CUR)` is the current file position, stored into
`ctx.file_size` under the `have_file_size` guard; the finalization
(truncate, patch MTK sizes, digest into `id`, write the little-endian
header at offset 0) runs only when the current entry pointer of the segment
writer is null.  The modelled file operations cannot fail, so only the
overflow rejection (`RET_FATAL`) and a digest-pass EOF (`RET_FAILED`)
remain as error exits; their intermediate file states are not tracked. -/
def mtk_writer_close (mtkSizeOff : Nat) (sha1 : List Nat → List Nat)
    (ctx : MtkWriterCtx) (file : MFile) : Ret × MtkWriterCtx × MFile :=
  let fs := if ctx.have_file_size then ctx.file_size else file.pos
  let ctx1 := { ctx with have_file_size := true, file_size := fs }
  match ctx1.cur with
  | some _ => (Ret.ok, ctx1, file)
  | none =>
    let f1 := file.truncate fs
    match patchMtkSizes mtkSizeOff ctx1.hdr ctx1.entries f1 with
    | none => (Ret.fatal, ctx1, f1)
    | some f2 =>
      match mtkSha1Go f2.data ctx1.entries 0 0 with
      | none => (Ret.failed, ctx1, f2)
      | some stream =>
        let hdr2 := { ctx1.hdr with
          id := sha1 stream ++ ctx1.hdr.id.drop SHA_DIGEST_LENGTH }
        let ctx2 := { ctx1 with hdr := hdr2 }
        let f3 := (MFile.mk f2.data 0).writeAt 0
          (serializeAndroidHeader hdr2)
        (Ret.ok, ctx2, f3)

/-- A contiguous byte range of the store, as the spec describes payload
reads. -/
def slice (data : List Nat) (offset size : Nat) : List Nat :=
  (data.drop offset).take size

/-- The digest stream as claim C1 words it for a table in canonical order:
per segment, the raw payload bytes, then the little-endian size term of
the table (none for the MTK sub-headers, payload size plus matching MTK
sub-header size for kernel and ramdisk, own size for secondboot, own size
for a non-empty device tree and nothing for an empty one). -/
def specDigestStreamC1 (data : List Nat)
    (o1 s1 o2 s2 o3 s3 o4 s4 o5 s5 o6 s6 : Nat) : List Nat :=
  slice data o1 s1
  ++ slice data o2 s2 ++ le32 (s2 + s1)
  ++ slice data o3 s3
  ++ slice data o4 s4 ++ le32 (s4 + s3)
  ++ slice data o5 s5 ++ le32 s5
  ++ slice data o6 s6 ++ (if s6 = 0 then [] else le32 s6)

/-- The MTK sub-header size patches as claim C2 words them: for each MTK
sub-header segment, the 4-byte little-endian payload size written at
`segment.offset + offsetof(MtkHeader, size)`. -/
def patchedDescr (mtkSizeOff : Nat) (hdr : AndroidHeader)
    (entries : List SegmentEntry) (file : MFile) : MFile :=
  entries.foldl (fun f e =>
    if e.type = EntryType.mtkKernelHeader then
      f.writeAt (e.offset + mtkSizeOff)
        (le32 ((hdr.kernel_size + U32MOD - sizeofMtkHeader) % U32MOD))
    else if e.type = EntryType.mtkRamdiskHeader then
      f.writeAt (e.offset + mtkSizeOff)
        (le32 ((hdr.ramdisk_size + U32MOD - sizeofMtkHeader) % U32MOD))
    else f) file

/-- The finalization sequence as claim C2 words it, parameterized by the
captured length `cap`: truncate to `cap`, patch the MTK sub-header sizes,
digest the stream into the first 20 bytes of `id`, and write the
little-endian header at offset 0. -/
def mtkCloseDescr (mtkSizeOff : Nat) (sha1 : List Nat → List Nat)
    (cap : Nat) (ctx : MtkWriterCtx) (file : MFile) :
    MtkWriterCtx × MFile :=
  let f1 := file.truncate cap
  let f2 := patchedDescr mtkSizeOff ctx.hdr ctx.entries f1
  let stream := (mtkSha1Go f2.data ctx.entries 0 0).getD []
  let hdr2 := { ctx.hdr with
    id := sha1 stream ++ ctx.hdr.id.drop SHA_DIGEST_LENGTH }
  let f3 := (MFile.mk f2.data 0).writeAt 0 (serializeAndroidHeader hdr2)
  ({ ctx with have_file_size := true, file_size := cap, hdr := hdr2 }, f3)

/-- The value `mtk_writer_close` captures under the `have_file_size`
guard: the already-recorded size, or else the current file position. -/
def closeCaptured (ctx : MtkWriterCtx) (file : MFile) : Nat :=
  if ctx.have_file_size then ctx.file_size else file.pos

/-- The digest stream of a close call: the `_mtk_compute_sha1` stream over
the truncated-and-patched file. -/
def closeStream (mtkSizeOff : Nat) (ctx : MtkWriterCtx) (file : MFile) :
    List Nat :=
  (mtkSha1Go
    (patchedDescr mtkSizeOff ctx.hdr ctx.entries
      (file.truncate (closeCaptured ctx file))).data
    ctx.entries 0 0).getD []

/-- A stand-in for the external SHA-1 primitive in concrete evaluations:
some fixed 20-byte digest. -/
def sha1stub : List Nat → List Nat :=
  fun _ => List.replicate 20 7

/-- A finished writer context (entry pointer exhausted, empty segment
table) used for concrete close evaluations. -/
def ctxC2x : MtkWriterCtx :=
  { hdr := AndroidHeader.mk BOOT_MAGIC 0 0 0 0 0 0 0 2048 0 0
      (List.replicate 16 0) (List.replicate 512 0) (List.replicate 32 0),
    entries := [],
    cur := none,
    have_file_size := false,
    file_size := 0 }

/-! ## Theorems -/

/-- Case analysis of `mtk_writer_finish_entry` shared by several claims. -/
theorem finish_entry_cases (e : SegmentEntry) (hdr : AndroidHeader) :
    (((e.type = EntryType.kernel ∨ e.type = EntryType.ramdisk)
        ∧ e.size = U32MAX - sizeofMtkHeader) →
      mtk_writer_finish_entry e hdr = (Ret.fatal, hdr))
    ∧ (((e.type = EntryType.mtkKernelHeader
          ∨ e.type = EntryType.mtkRamdiskHeader)
        ∧ e.size ≠ sizeofMtkHeader) →
      mtk_writer_finish_entry e hdr = (Ret.fatal, hdr))
    ∧ (e.type = EntryType.kernel → e.size ≠ U32MAX - sizeofMtkHeader →
      mtk_writer_finish_entry e hdr =
        (Ret.ok, { hdr with kernel_size := (e.size + sizeofMtkHeader) % U32MOD }))
    ∧ (e.type = EntryType.ramdisk → e.size ≠ U32MAX - sizeofMtkHeader →
      mtk_writer_finish_entry e hdr =
        (Ret.ok, { hdr with ramdisk_size := (e.size + sizeofMtkHeader) % U32MOD }))
    ∧ (e.type = EntryType.secondboot →
      mtk_writer_finish_entry e hdr =
        (Ret.ok, { hdr with second_size := e.size % U32MOD }))
    ∧ (e.type = EntryType.deviceTree →
      mtk_writer_finish_entry e hdr =
        (Ret.ok, { hdr with dt_size := e.size % U32MOD }))
    ∧ (e.type = EntryType.mtkKernelHeader → e.size = sizeofMtkHeader →
      mtk_writer_finish_entry e hdr = (Ret.ok, hdr))
    ∧ (e.type = EntryType.mtkRamdiskHeader → e.size = sizeofMtkHeader →
      mtk_writer_finish_entry e hdr = (Ret.ok, hdr)) := by
  obtain ⟨t, o, s, c⟩ := e
  refine ⟨?_, ?_, ?_, ?_, ?_, ?_, ?_, ?_⟩
  · rintro ⟨h1 | h1, h2⟩ <;> subst h1 <;> subst h2 <;>
      simp [mtk_writer_finish_entry]
  · rintro ⟨h1 | h1, h2⟩ <;> subst h1 <;>
      simp [mtk_writer_finish_entry, h2]
  · rintro rfl h2; simp [mtk_writer_finish_entry, h2]
  · rintro rfl h2; simp [mtk_writer_finish_entry, h2]
  · rintro rfl; simp [mtk_writer_finish_entry]
  · rintro rfl; simp [mtk_writer_finish_entry]
  · rintro rfl h2; subst h2; simp [mtk_writer_finish_entry]
  · rintro rfl h2; subst h2; simp [mtk_writer_finish_entry]

/-- C3: `mtk_writer_finish_entry` is fatal exactly for a KERNEL/RAMDISK of
size `UINT32_MAX - sizeof(MtkHeader)` and for an MTK sub-header entry of
size other than `sizeof(MtkHeader)`; otherwise it succeeds and updates the
in-memory Android header field matching the entry type. -/
theorem C3_finish_entry_validation (e : SegmentEntry) (hdr : AndroidHeader) :
    (((e.type = EntryType.kernel ∨ e.type = EntryType.ramdisk)
        ∧ e.size = U32MAX - sizeofMtkHeader) →
      mtk_writer_finish_entry e hdr = (Ret.fatal, hdr))
    ∧ (((e.type = EntryType.mtkKernelHeader
          ∨ e.type = EntryType.mtkRamdiskHeader)
        ∧ e.size ≠ sizeofMtkHeader) →
      mtk_writer_finish_entry e hdr = (Ret.fatal, hdr))
    ∧ (e.type = EntryType.kernel → e.size ≠ U32MAX - sizeofMtkHeader →
      mtk_writer_finish_entry e hdr =
        (Ret.ok, { hdr with kernel_size := (e.size + sizeofMtkHeader) % U32MOD }))
    ∧ (e.type = EntryType.ramdisk → e.size ≠ U32MAX - sizeofMtkHeader →
      mtk_writer_finish_entry e hdr =
        (Ret.ok, { hdr with ramdisk_size := (e.size + sizeofMtkHeader) % U32MOD }))
    ∧ (e.type = EntryType.secondboot →
      mtk_writer_finish_entry e hdr =
        (Ret.ok, { hdr with second_size := e.size % U32MOD }))
    ∧ (e.type = EntryType.deviceTree →
      mtk_writer_finish_entry e hdr =
        (Ret.ok, { hdr with dt_size := e.size % U32MOD }))
    ∧ (e.type = EntryType.mtkKernelHeader → e.size = sizeofMtkHeader →
      mtk_writer_finish_entry e hdr = (Ret.ok, hdr))
    ∧ (e.type = EntryType.mtkRamdiskHeader → e.size = sizeofMtkHeader →
      mtk_writer_finish_entry e hdr = (Ret.ok, hdr)) :=
  finish_entry_cases e hdr

/-- Witness for C3 at a concrete fatal input and a concrete success input:
a KERNEL entry of the overflow size is rejected, and a SECONDBOOT entry
stores its size. -/
theorem C3_finish_entry_validation_witness :
    mtk_writer_finish_entry
        ⟨EntryType.kernel, 0, U32MAX - sizeofMtkHeader, false⟩
        (AndroidHeader.mk BOOT_MAGIC 0 0 0 0 0 0 0 2048 0 0 [] [] []) =
      (Ret.fatal, AndroidHeader.mk BOOT_MAGIC 0 0 0 0 0 0 0 2048 0 0 [] [] [])
    ∧ mtk_writer_finish_entry ⟨EntryType.secondboot, 0, 77, false⟩
        (AndroidHeader.mk BOOT_MAGIC 0 0 0 0 0 0 0 2048 0 0 [] [] []) =
      (Ret.ok, AndroidHeader.mk BOOT_MAGIC 0 0 0 0 77 0 0 2048 0 0 [] [] []) := by
  constructor
  · exact (C3_finish_entry_validation
      ⟨EntryType.kernel, 0, U32MAX - sizeofMtkHeader, false⟩
      (AndroidHeader.mk BOOT_MAGIC 0 0 0 0 0 0 0 2048 0 0 [] [] [])).1
      (by constructor
          · exact Or.inl rfl
          · rfl)
  · have h := (C3_finish_entry_validation ⟨EntryType.secondboot, 0, 77, false⟩
      (AndroidHeader.mk BOOT_MAGIC 0 0 0 0 0 0 0 2048 0 0 [] [] [])).2.2.2.2.1 rfl
    simpa [U32MOD] using h

/-- C10: the oversize guard rejects only the single value
`UINT32_MAX - sizeof(MtkHeader)`: any strictly larger 64-bit size passes
the check and the 32-bit header field receives `(size + sizeof(MtkHeader))`
reduced mod 2^32. -/
theorem C10_oversize_guard_single_value (o s : Nat) (c : Bool)
    (hdr : AndroidHeader)
    (_hlt : s < 2 ^ 64) (hgt : U32MAX - sizeofMtkHeader < s) :
    mtk_writer_finish_entry ⟨EntryType.kernel, o, s, c⟩ hdr =
      (Ret.ok, { hdr with kernel_size := (s + sizeofMtkHeader) % U32MOD })
    ∧ mtk_writer_finish_entry ⟨EntryType.ramdisk, o, s, c⟩ hdr =
      (Ret.ok, { hdr with ramdisk_size := (s + sizeofMtkHeader) % U32MOD }) := by
  have hne : s ≠ U32MAX - sizeofMtkHeader := by omega
  constructor
  · exact (finish_entry_cases ⟨EntryType.kernel, o, s, c⟩ hdr).2.2.1
      rfl hne
  · exact (finish_entry_cases ⟨EntryType.ramdisk, o, s, c⟩ hdr).2.2.2.1
      rfl hne

/-- Witness for C10: a kernel of finished size `UINT32_MAX` (greater than
the guarded value) succeeds and wraps: the stored `kernel_size` is
`(UINT32_MAX + 512) mod 2^32 = 511`. -/
theorem C10_oversize_guard_single_value_witness :
    mtk_writer_finish_entry ⟨EntryType.kernel, 0, U32MAX, false⟩
        (AndroidHeader.mk BOOT_MAGIC 0 0 0 0 0 0 0 2048 0 0 [] [] []) =
      (Ret.ok,
        AndroidHeader.mk BOOT_MAGIC 511 0 0 0 0 0 0 2048 0 0 [] [] []) := by
  have h := (C10_oversize_guard_single_value 0 U32MAX false
    (AndroidHeader.mk BOOT_MAGIC 0 0 0 0 0 0 0 2048 0 0 [] [] [])
    (by decide) (by decide)).1
  simpa [U32MOD, U32MAX, sizeofMtkHeader] using h

/-- C6: a bid fed a `best_bid` at or above the maximum score of the codec
(`(BOOT_MAGIC_SIZE + magic size) * 8`) returns `CANNOT_WIN` immediately:
the result is the same for every file (no seek or read takes place) and
the context is untouched. -/
theorem C6_bid_cannot_win (maxHeaderOffset : Nat)
    (samsungMagic bumpMagic : List Nat) (ctx : AndroidReaderCtx)
    (best_bid : Int) (file : MFile) :
    (best_bid ≥ ((BOOT_MAGIC_SIZE + samsungMagic.length : Nat) * 8 : Nat) →
      android_reader_bid maxHeaderOffset samsungMagic ctx best_bid file =
        (BidResult.cannotWin, ctx))
    ∧ (best_bid ≥ ((BOOT_MAGIC_SIZE + bumpMagic.length : Nat) * 8 : Nat) →
      bump_reader_bid maxHeaderOffset bumpMagic ctx best_bid file =
        (BidResult.cannotWin, ctx)) := by
  constructor
  · intro h; unfold android_reader_bid; rw [if_pos h]
  · intro h; unfold bump_reader_bid; rw [if_pos h]

/-- Witness for C6: with a 16-byte trailer magic, `best_bid = 192` is
already unbeatable and both bids bail out on an arbitrary file. -/
theorem C6_bid_cannot_win_witness :
    android_reader_bid 512 (List.replicate 16 1)
        mb_bi_reader_enable_format_android 192 ⟨[1, 2, 3], 0⟩ =
      (BidResult.cannotWin, mb_bi_reader_enable_format_android)
    ∧ bump_reader_bid 512 (List.replicate 16 1)
        mb_bi_reader_enable_format_android 192 ⟨[1, 2, 3], 0⟩ =
      (BidResult.cannotWin, mb_bi_reader_enable_format_android) := by
  have h := C6_bid_cannot_win 512 (List.replicate 16 1) (List.replicate 16 1)
    mb_bi_reader_enable_format_android 192 ⟨[1, 2, 3], 0⟩
  exact ⟨h.1 (by decide), h.2 (by decide)⟩

/-- C7: `android_reader_set_option` with key `"strict"` clears
`allow_truncated_dt` exactly when the value equals (case-insensitively)
`"true"`, `"yes"` or `"y"`, or equals `"1"` exactly; every other value
sets it to true; any other key returns `RET_WARN` (surfaced as the
`UNKNOWN_OPTION`) and changes nothing; and the context created by
`mb_bi_reader_enable_format_android` defaults `allow_truncated_dt` to
true. -/
theorem C7_strict_option (ctx : AndroidReaderCtx) (key value : List Nat) :
    (android_reader_set_option ctx [115, 116, 114, 105, 99, 116] value =
      (Ret.ok, { ctx with allow_truncated_dt :=
        !(strcaseEq value [116, 114, 117, 101]
          || strcaseEq value [121, 101, 115]
          || strcaseEq value [121]
          || value = [49]) }))
    ∧ ((android_reader_set_option ctx [115, 116, 114, 105, 99, 116]
          value).2.allow_truncated_dt = false ↔
        (strcaseEq value [116, 114, 117, 101] = true
          ∨ strcaseEq value [121, 101, 115] = true
          ∨ strcaseEq value [121] = true
          ∨ value = [49]))
    ∧ (key ≠ [115, 116, 114, 105, 99, 116] →
      android_reader_set_option ctx key value = (Ret.warn, ctx))
    ∧ mb_bi_reader_enable_format_android.allow_truncated_dt = true := by
  refine ⟨?_, ?_, ?_, rfl⟩
  · simp [android_reader_set_option]
  · show (!(strcaseEq value [116, 114, 117, 101]
        || strcaseEq value [121, 101, 115]
        || strcaseEq value [121]
        || value = [49])) = false ↔ _
    rw [Bool.not_eq_false']
    simp [or_assoc]
  · intro h; simp [android_reader_set_option, h]

/-- Witness for C7: value `"TRUE"` (case-insensitive match) disables
truncated DT, value `"0"` enables it, and an unknown key `"foo"` is
rejected without change. -/
theorem C7_strict_option_witness :
    android_reader_set_option mb_bi_reader_enable_format_android
        [115, 116, 114, 105, 99, 116] [84, 82, 85, 69] =
      (Ret.ok, { mb_bi_reader_enable_format_android with
        allow_truncated_dt := false })
    ∧ android_reader_set_option mb_bi_reader_enable_format_android
        [115, 116, 114, 105, 99, 116] [48] =
      (Ret.ok, { mb_bi_reader_enable_format_android with
        allow_truncated_dt := true })
    ∧ android_reader_set_option mb_bi_reader_enable_format_android
        [102, 111, 111] [84, 82, 85, 69] =
      (Ret.warn, mb_bi_reader_enable_format_android) := by
  refine ⟨?_, ?_, ?_⟩
  · have h := (C7_strict_option mb_bi_reader_enable_format_android
      [102, 111, 111] [84, 82, 85, 69]).1
    simpa using h
  · have h := (C7_strict_option mb_bi_reader_enable_format_android
      [102, 111, 111] [48]).1
    simpa using h
  · exact (C7_strict_option mb_bi_reader_enable_format_android
      [102, 111, 111] [84, 82, 85, 69]).2.2.1 (by decide)

/-- C8: without a prior successful bid (`have_header_offset` false),
`android_reader_read_header` performs the header scan itself, caches the
decoded header and offset, and raises `have_header_offset`; when
`have_header_offset` is already set, the file is not scanned again: the
result is the same for every file and the cached header and offset are
kept. -/
theorem C8_lazy_header_scan (maxHeaderOffset : Nat)
    (ctx : AndroidReaderCtx) (file : MFile) :
    (ctx.have_header_offset = false →
      ∀ hdr off, find_android_header maxHeaderOffset file = some (hdr, off) →
        android_reader_read_header maxHeaderOffset ctx file =
          some { ctx with
                 hdr := hdr,
                 header_offset := off,
                 have_header_offset := true,
                 segEntries :=
                   androidReaderSegments off hdr ctx.allow_truncated_dt })
    ∧ (ctx.have_header_offset = true →
      (∀ g : MFile,
        android_reader_read_header maxHeaderOffset ctx file =
          android_reader_read_header maxHeaderOffset ctx g)
      ∧ android_reader_read_header maxHeaderOffset ctx file =
          some { ctx with
                 segEntries :=
                   androidReaderSegments ctx.header_offset ctx.hdr
                     ctx.allow_truncated_dt }) := by
  constructor
  · intro hno hdr off hfind
    simp [android_reader_read_header, hno, hfind]
  · intro hyes
    constructor
    · intro g
      simp [android_reader_read_header, hyes]
    · simp [android_reader_read_header, hyes]

/-- Witness for C8: a 608-byte file starting with `"ANDROID!"` is scanned
lazily by `read_header` on a fresh context; a context with the flag
already set yields a file-independent result. -/
theorem C8_lazy_header_scan_witness :
    android_reader_read_header 0 mb_bi_reader_enable_format_android
        ⟨BOOT_MAGIC ++ List.replicate 600 0, 0⟩ =
      some { mb_bi_reader_enable_format_android with
             hdr := AndroidHeader.mk BOOT_MAGIC 0 0 0 0 0 0 0 0 0 0
               (List.replicate 16 0) (List.replicate 512 0)
               (List.replicate 32 0),
             header_offset := 0,
             have_header_offset := true,
             segEntries := androidReaderSegments 0
               (AndroidHeader.mk BOOT_MAGIC 0 0 0 0 0 0 0 0 0 0
                 (List.replicate 16 0) (List.replicate 512 0)
                 (List.replicate 32 0)) true }
    ∧ android_reader_read_header 0
        { mb_bi_reader_enable_format_android with have_header_offset := true }
        ⟨[], 0⟩ =
      android_reader_read_header 0
        { mb_bi_reader_enable_format_android with have_header_offset := true }
        ⟨[7, 7, 7], 2⟩ := by
  constructor
  · exact (C8_lazy_header_scan 0 mb_bi_reader_enable_format_android
      ⟨BOOT_MAGIC ++ List.replicate 600 0, 0⟩).1 (by decide)
      (AndroidHeader.mk BOOT_MAGIC 0 0 0 0 0 0 0 0 0 0
        (List.replicate 16 0) (List.replicate 512 0) (List.replicate 32 0))
      0 (by decide)
  · exact ((C8_lazy_header_scan 0
      { mb_bi_reader_enable_format_android with have_header_offset := true }
      ⟨[], 0⟩).2 (by decide)).1 ⟨[7, 7, 7], 2⟩

/-- C4: after a successful `android_reader_read_header` the segment table
is exactly: KERNEL at `header_offset + sizeof(AndroidHeader)` aligned up
to the page size, then RAMDISK, SECONDBOOT (only when `second_size > 0`)
and DEVICE_TREE (only when `dt_size > 0`, with `can_truncate` equal to
`allow_truncated_dt`), each starting at the previous end aligned up to the
page size. -/
theorem C4_segment_table (maxHeaderOffset : Nat)
    (ctx ctx2 : AndroidReaderCtx) (file : MFile)
    (h : android_reader_read_header maxHeaderOffset ctx file = some ctx2)
    (_hp : 0 < ctx2.hdr.page_size) :
    ctx2.segEntries =
      [⟨EntryType.kernel,
        alignUp (ctx2.header_offset + sizeofAndroidHeader) ctx2.hdr.page_size,
        ctx2.hdr.kernel_size, false⟩,
       ⟨EntryType.ramdisk,
        alignUp (alignUp (ctx2.header_offset + sizeofAndroidHeader)
            ctx2.hdr.page_size + ctx2.hdr.kernel_size) ctx2.hdr.page_size,
        ctx2.hdr.ramdisk_size, false⟩]
      ++ (if 0 < ctx2.hdr.second_size then
          [⟨EntryType.secondboot,
            alignUp (alignUp (alignUp (ctx2.header_offset + sizeofAndroidHeader)
                ctx2.hdr.page_size + ctx2.hdr.kernel_size) ctx2.hdr.page_size
              + ctx2.hdr.ramdisk_size) ctx2.hdr.page_size,
            ctx2.hdr.second_size, false⟩] else [])
      ++ (if 0 < ctx2.hdr.dt_size then
          [⟨EntryType.deviceTree,
            alignUp (alignUp (alignUp (alignUp
                (ctx2.header_offset + sizeofAndroidHeader)
                ctx2.hdr.page_size + ctx2.hdr.kernel_size) ctx2.hdr.page_size
              + ctx2.hdr.ramdisk_size) ctx2.hdr.page_size
              + ctx2.hdr.second_size) ctx2.hdr.page_size,
            ctx2.hdr.dt_size, ctx2.allow_truncated_dt⟩] else []) := by
  have hseg : ctx2.segEntries =
      androidReaderSegments ctx2.header_offset ctx2.hdr
        ctx2.allow_truncated_dt := by
    by_cases hh : ctx.have_header_offset
    · simp only [android_reader_read_header, hh, if_pos] at h
      obtain rfl := (Option.some.injEq _ _).mp h.symm
      rfl
    · simp only [android_reader_read_header, hh, Bool.false_eq_true,
        if_false] at h
      cases hfind : find_android_header maxHeaderOffset file with
      | none => rw [hfind] at h; cases h
      | some p =>
        obtain ⟨hdr, off⟩ := p
        rw [hfind] at h
        obtain rfl := (Option.some.injEq _ _).mp h.symm
        rfl
  rw [hseg]
  simp [androidReaderSegments, alignUp]

/-- Witness for C4: a cached context with page size 2048, `second_size`
zero and `dt_size` 100 yields KERNEL, RAMDISK, DEVICE_TREE segments at
page-aligned offsets, the device tree marked truncatable. -/
theorem C4_segment_table_witness :
    ((android_reader_read_header 0
      { mb_bi_reader_enable_format_android with
        hdr := AndroidHeader.mk BOOT_MAGIC 100 0 200 0 0 0 0 2048 100 0
               [] [] [],
        header_offset := 0,
        have_header_offset := true }
      ⟨[], 0⟩).get (by decide)).segEntries =
      [⟨EntryType.kernel, 2048, 100, false⟩,
       ⟨EntryType.ramdisk, 4096, 200, false⟩,
       ⟨EntryType.deviceTree, 6144, 100, true⟩] := by
  have h := C4_segment_table 0
    { mb_bi_reader_enable_format_android with
      hdr := AndroidHeader.mk BOOT_MAGIC 100 0 200 0 0 0 0 2048 100 0
             [] [] [],
      header_offset := 0,
      have_header_offset := true }
    ((android_reader_read_header 0
      { mb_bi_reader_enable_format_android with
        hdr := AndroidHeader.mk BOOT_MAGIC 100 0 200 0 0 0 0 2048 100 0
               [] [] [],
        header_offset := 0,
        have_header_offset := true }
      ⟨[], 0⟩).get (by decide))
    ⟨[], 0⟩ (by decide) (by decide)
  rw [h]
  decide

/-- C5: in a winnable bid, `android_reader_bid` scores 0 when the
`"ANDROID!"` magic is absent from the first
`MAX_HEADER_OFFSET + sizeof(AndroidHeader)` bytes, `BOOT_MAGIC_SIZE * 8`
when the header is found but the Samsung SEAndroid magic is not at the
tail offset (page size, then each section size aligned up to the page
size), and `(BOOT_MAGIC_SIZE + SAMSUNG_SEANDROID_MAGIC_SIZE) * 8` when the
magic is there. -/
theorem C5_android_bid_score (maxHeaderOffset : Nat)
    (samsungMagic : List Nat) (ctx : AndroidReaderCtx) (best_bid : Int)
    (file : MFile)
    (hbest : best_bid <
      ((BOOT_MAGIC_SIZE + samsungMagic.length : Nat) * 8 : Nat)) :
    (mb_memmem (file.data.take (maxHeaderOffset + sizeofAndroidHeader))
        BOOT_MAGIC = none →
      (android_reader_bid maxHeaderOffset samsungMagic ctx best_bid
        file).1 = BidResult.score 0)
    ∧ (∀ hdr off,
      find_android_header maxHeaderOffset file = some (hdr, off) →
      file.readAt (tailOffset hdr) samsungMagic.length ≠ samsungMagic →
      (android_reader_bid maxHeaderOffset samsungMagic ctx best_bid
        file).1 = BidResult.score (BOOT_MAGIC_SIZE * 8))
    ∧ (∀ hdr off,
      find_android_header maxHeaderOffset file = some (hdr, off) →
      file.readAt (tailOffset hdr) samsungMagic.length = samsungMagic →
      (android_reader_bid maxHeaderOffset samsungMagic ctx best_bid
        file).1 =
        BidResult.score ((BOOT_MAGIC_SIZE + samsungMagic.length) * 8)) := by
  have hnotge : ¬ best_bid ≥
      ((BOOT_MAGIC_SIZE + samsungMagic.length : Nat) * 8 : Nat) :=
    not_le.mpr hbest
  refine ⟨?_, ?_, ?_⟩
  · intro hmm
    have hfind : find_android_header maxHeaderOffset file = none := by
      simp [find_android_header, hmm]
    unfold android_reader_bid
    rw [if_neg hnotge, hfind]
  · intro hdr off hfind hne
    have hsam : find_samsung_seandroid_magic samsungMagic hdr file = none := by
      unfold find_samsung_seandroid_magic
      rw [if_neg]
      rintro ⟨-, h2⟩
      exact hne h2
    unfold android_reader_bid
    rw [if_neg hnotge, hfind]
    simp [hsam]
  · intro hdr off hfind heq
    have hsam : find_samsung_seandroid_magic samsungMagic hdr file =
        some (tailOffset hdr) := by
      unfold find_samsung_seandroid_magic
      rw [if_pos ⟨by rw [heq], heq⟩]
    unfold android_reader_bid
    rw [if_neg hnotge, hfind]
    simp [hsam, Nat.add_mul]

/-- Witness for C5, with 2-byte stand-in trailer magics: an unrelated file
scores 0; a header of all-zero sizes puts the tail offset at 0, so probing
it for the magic `[9, 9]` fails (score 64) while probing for `[65, 78]`
(the bytes actually at offset 0) succeeds (score 80). -/
theorem C5_android_bid_score_witness :
    (android_reader_bid 0 [9, 9] mb_bi_reader_enable_format_android 0
      ⟨[1, 2, 3], 0⟩).1 = BidResult.score 0
    ∧ (android_reader_bid 0 [9, 9] mb_bi_reader_enable_format_android 0
      ⟨BOOT_MAGIC ++ List.replicate 600 0, 0⟩).1 = BidResult.score 64
    ∧ (android_reader_bid 0 [65, 78] mb_bi_reader_enable_format_android 0
      ⟨BOOT_MAGIC ++ List.replicate 600 0, 0⟩).1 = BidResult.score 80 := by
  refine ⟨?_, ?_, ?_⟩
  · exact (C5_android_bid_score 0 [9, 9] mb_bi_reader_enable_format_android 0
      ⟨[1, 2, 3], 0⟩ (by decide)).1 (by decide)
  · exact (C5_android_bid_score 0 [9, 9] mb_bi_reader_enable_format_android 0
      ⟨BOOT_MAGIC ++ List.replicate 600 0, 0⟩ (by decide)).2.1
      (AndroidHeader.mk BOOT_MAGIC 0 0 0 0 0 0 0 0 0 0
        (List.replicate 16 0) (List.replicate 512 0) (List.replicate 32 0))
      0 (by decide) (by decide)
  · have h := (C5_android_bid_score 0 [65, 78]
      mb_bi_reader_enable_format_android 0
      ⟨BOOT_MAGIC ++ List.replicate 600 0, 0⟩ (by decide)).2.2
      (AndroidHeader.mk BOOT_MAGIC 0 0 0 0 0 0 0 0 0 0
        (List.replicate 16 0) (List.replicate 512 0) (List.replicate 32 0))
      0 (by decide) (by decide)
    simpa using h

/-- The encoding `le32` only depends on its argument mod 2^32. -/
theorem le32_congr (m n : Nat) (h : m % 4294967296 = n % 4294967296) :
    le32 m = le32 n := by
  simp only [le32, List.cons.injEq, and_true]
  omega

/-- The chunked read loop reads exactly the requested range when the range
lies inside the store. -/
theorem readChunked_eq (data : List Nat) :
    ∀ remain offset, offset + remain ≤ data.length →
      readChunked data offset remain = some (slice data offset remain) := by
  intro remain
  induction remain using Nat.strong_induction_on with
  | _ remain ih =>
    intro offset hle
    rw [readChunked]
    by_cases h0 : remain = 0
    · subst h0; simp [slice]
    · rw [dif_neg h0]
      have hmin : min remain 10240 ≤ remain := Nat.min_le_left _ _
      have hpos : 0 < min remain 10240 := by omega
      have hlen : ((data.drop offset).take (min remain 10240)).length =
          min remain 10240 := by
        simp only [List.length_take, List.length_drop]
        omega
      rw [if_pos hlen,
        ih (remain - min remain 10240) (by omega) (offset + min remain 10240)
          (by omega)]
      simp only [Option.map_some', Option.some.injEq, slice]
      rw [← List.drop_drop]
      rw [← List.take_add]
      congr 1
      omega

/-- C1: for a segment table in canonical MTK order with known offsets and
sizes that lie inside the file, the digest pass feeds SHA-1 exactly the
sequence of claim C1: per segment the payload bytes followed by the
little-endian size terms of the table (kernel and ramdisk augmented by the
matching MTK sub-header size, no term for the sub-headers themselves or
for an empty device tree). -/
theorem C1_digest_stream (data : List Nat)
    (o1 s1 o2 s2 o3 s3 o4 s4 o5 s5 o6 s6 : Nat)
    (h1 : o1 + s1 ≤ data.length) (h2 : o2 + s2 ≤ data.length)
    (h3 : o3 + s3 ≤ data.length) (h4 : o4 + s4 ≤ data.length)
    (h5 : o5 + s5 ≤ data.length) (h6 : o6 + s6 ≤ data.length) :
    ∀ sha1 : List Nat → List Nat,
      Option.map sha1 (mtkSha1Go data
        [⟨EntryType.mtkKernelHeader, o1, s1, false⟩,
         ⟨EntryType.kernel, o2, s2, false⟩,
         ⟨EntryType.mtkRamdiskHeader, o3, s3, false⟩,
         ⟨EntryType.ramdisk, o4, s4, false⟩,
         ⟨EntryType.secondboot, o5, s5, false⟩,
         ⟨EntryType.deviceTree, o6, s6, false⟩] 0 0) =
      some (sha1 (specDigestStreamC1 data o1 s1 o2 s2 o3 s3 o4 s4 o5 s5
        o6 s6)) := by
  intro sha1
  have e2 : le32 (s2 + s1 % U32MOD) = le32 (s2 + s1) :=
    le32_congr _ _ (by unfold U32MOD; omega)
  have e4 : le32 (s4 + s3 % U32MOD) = le32 (s4 + s3) :=
    le32_congr _ _ (by unfold U32MOD; omega)
  simp only [mtkSha1Go, readChunked_eq data _ _ h1, readChunked_eq data _ _ h2,
    readChunked_eq data _ _ h3, readChunked_eq data _ _ h4,
    readChunked_eq data _ _ h5, readChunked_eq data _ _ h6]
  by_cases h60 : s6 = 0
  · simp [h60, specDigestStreamC1, e2, e4]
  · simp [h60, specDigestStreamC1, e2, e4]

/-- Witness for C1: a canonical six-entry table over a 40-byte store, with
the identity function standing in for the external SHA-1. -/
theorem C1_digest_stream_witness :
    Option.map (fun l => l) (mtkSha1Go (List.range 40)
      [⟨EntryType.mtkKernelHeader, 0, 3, false⟩,
       ⟨EntryType.kernel, 3, 3, false⟩,
       ⟨EntryType.mtkRamdiskHeader, 6, 3, false⟩,
       ⟨EntryType.ramdisk, 9, 3, false⟩,
       ⟨EntryType.secondboot, 12, 3, false⟩,
       ⟨EntryType.deviceTree, 15, 3, false⟩] 0 0) =
    some ((fun l => l) (specDigestStreamC1 (List.range 40)
      0 3 3 3 6 3 9 3 12 3 15 3)) :=
  C1_digest_stream (List.range 40) 0 3 3 3 6 3 9 3 12 3 15 3
    (by decide) (by decide) (by decide) (by decide) (by decide) (by decide)
    (fun l => l)

/-- The loop `patchMtkSizes` succeeds and equals the checkless patch fold
whenever
every MTK sub-header offset passes the overflow guard. -/
theorem patchMtkSizes_eq (mtkSizeOff : Nat) (hdr : AndroidHeader) :
    ∀ (entries : List SegmentEntry) (file : MFile),
      (∀ e ∈ entries,
        (e.type = EntryType.mtkKernelHeader
          ∨ e.type = EntryType.mtkRamdiskHeader) →
        e.offset ≤ SIZEMAX - mtkSizeOff) →
      patchMtkSizes mtkSizeOff hdr entries file =
        some (patchedDescr mtkSizeOff hdr entries file) := by
  intro entries
  induction entries with
  | nil => intro file _; rfl
  | cons e rest ih =>
    intro file hb
    have hbrest : ∀ e2 ∈ rest,
        (e2.type = EntryType.mtkKernelHeader
          ∨ e2.type = EntryType.mtkRamdiskHeader) →
        e2.offset ≤ SIZEMAX - mtkSizeOff :=
      fun e2 h2 ht => hb e2 (List.mem_cons_of_mem _ h2) ht
    obtain ⟨t, o, s, c⟩ := e
    cases t with
    | mtkKernelHeader =>
      have hoff : o ≤ SIZEMAX - mtkSizeOff :=
        hb _ (List.mem_cons_self _ _) (Or.inl rfl)
      simp only [patchMtkSizes, _mtk_header_update_size,
        if_neg (not_lt.mpr hoff)]
      rw [ih _ hbrest]
      simp [patchedDescr]
    | mtkRamdiskHeader =>
      have hoff : o ≤ SIZEMAX - mtkSizeOff :=
        hb _ (List.mem_cons_self _ _) (Or.inr rfl)
      simp only [patchMtkSizes, _mtk_header_update_size,
        if_neg (not_lt.mpr hoff)]
      rw [ih _ hbrest]
      simp [patchedDescr]
    | kernel =>
      simp only [patchMtkSizes]
      rw [ih _ hbrest]
      simp [patchedDescr]
    | ramdisk =>
      simp only [patchMtkSizes]
      rw [ih _ hbrest]
      simp [patchedDescr]
    | secondboot =>
      simp only [patchMtkSizes]
      rw [ih _ hbrest]
      simp [patchedDescr]
    | deviceTree =>
      simp only [patchMtkSizes]
      rw [ih _ hbrest]
      simp [patchedDescr]

/-- C2 (amended): with the segment cursor exhausted, `mtk_writer_close`
captures the current file position once, truncates the file to it, patches
for each MTK sub-header the 4-byte little-endian size field at
`offset + offsetof(MtkHeader, size)` with the payload size, stores the
trailer digest in the first 20 bytes of `id` (the trailing 12 staying
zero), and writes the byte-swapped header at offset 0. -/
theorem C2_close_finalization (mtkSizeOff : Nat)
    (sha1 : List Nat → List Nat) (ctx : MtkWriterCtx) (file : MFile)
    (hcur : ctx.cur = none)
    (hoffs : ∀ e ∈ ctx.entries,
      (e.type = EntryType.mtkKernelHeader
        ∨ e.type = EntryType.mtkRamdiskHeader) →
      e.offset ≤ SIZEMAX - mtkSizeOff)
    (hstream : (mtkSha1Go
      (patchedDescr mtkSizeOff ctx.hdr ctx.entries
        (file.truncate (closeCaptured ctx file))).data
      ctx.entries 0 0).isSome = true)
    (hid : ctx.hdr.id.drop SHA_DIGEST_LENGTH = List.replicate 12 0)
    (hlen : (sha1 (closeStream mtkSizeOff ctx file)).length = 20) :
    mtk_writer_close mtkSizeOff sha1 ctx file =
      (Ret.ok, mtkCloseDescr mtkSizeOff sha1 (closeCaptured ctx file)
        ctx file)
    ∧ (mtk_writer_close mtkSizeOff sha1 ctx file).2.1.hdr.id.take 20 =
        sha1 (closeStream mtkSizeOff ctx file)
    ∧ (mtk_writer_close mtkSizeOff sha1 ctx file).2.1.hdr.id.drop 20 =
        List.replicate 12 0 := by
  obtain ⟨s, hs⟩ := Option.isSome_iff_exists.mp hstream
  have hmain : mtk_writer_close mtkSizeOff sha1 ctx file =
      (Ret.ok, mtkCloseDescr mtkSizeOff sha1 (closeCaptured ctx file)
        ctx file) := by
    unfold mtk_writer_close mtkCloseDescr
    simp only [hcur, closeCaptured] at hs ⊢
    rw [patchMtkSizes_eq mtkSizeOff ctx.hdr ctx.entries _ hoffs]
    simp [hs]
  refine ⟨hmain, ?_, ?_⟩
  · rw [hmain]
    show (sha1 (closeStream mtkSizeOff ctx file)
        ++ ctx.hdr.id.drop SHA_DIGEST_LENGTH).take 20 =
      sha1 (closeStream mtkSizeOff ctx file)
    rw [← hlen]
    exact List.take_left _ _
  · rw [hmain]
    show (sha1 (closeStream mtkSizeOff ctx file)
        ++ ctx.hdr.id.drop SHA_DIGEST_LENGTH).drop 20 =
      List.replicate 12 0
    rw [← hlen, List.drop_left]
    exact hid

/-- Counterexample to C2 as stated: the close pass captures the current
file *position*, not the file length.  On a file of 630 bytes whose
position is 620, the code truncates to 620 while the claimed narrative
(capture the length, truncate to it) predicts 630; the results differ. -/
theorem C2_close_capture_counterexample :
    ¬ (mtk_writer_close 4 sha1stub ctxC2x ⟨List.replicate 630 1, 620⟩ =
      (Ret.ok, mtkCloseDescr 4 sha1stub
        (MFile.data ⟨List.replicate 630 1, 620⟩).length ctxC2x
        ⟨List.replicate 630 1, 620⟩)) := by
  intro h
  have h2 := congrArg (fun p => p.2.1.file_size) h
  simp only [mtk_writer_close, mtkCloseDescr, ctxC2x, sha1stub] at h2
  revert h2
  decide

/-- Witness for C2 (amended) at a finished context over a 620-byte file
positioned at its end. -/
theorem C2_close_finalization_witness :
    mtk_writer_close 4 sha1stub ctxC2x ⟨List.replicate 620 1, 620⟩ =
      (Ret.ok, mtkCloseDescr 4 sha1stub 620 ctxC2x
        ⟨List.replicate 620 1, 620⟩)
    ∧ (mtk_writer_close 4 sha1stub ctxC2x
        ⟨List.replicate 620 1, 620⟩).2.1.hdr.id.drop 20 =
      List.replicate 12 0 := by
  have h := C2_close_finalization 4 sha1stub ctxC2x
    ⟨List.replicate 620 1, 620⟩ rfl (by decide) (by decide) (by decide)
    (by decide)
  exact ⟨h.1, h.2.2⟩

/-- C9: while the segment writer still has a current entry,
`mtk_writer_close` returns OK and leaves the file untouched (no truncate,
no patching, no digest, no header write); only the file-size capture
happens, at most once across repeated close calls. -/
theorem C9_close_pending_entry_frame (mtkSizeOff : Nat)
    (sha1 : List Nat → List Nat) (ctx : MtkWriterCtx) (file : MFile)
    (e : SegmentEntry) (hcur : ctx.cur = some e) :
    mtk_writer_close mtkSizeOff sha1 ctx file =
      (Ret.ok,
        { ctx with have_file_size := true,
                   file_size := if ctx.have_file_size then ctx.file_size
                     else file.pos },
        file)
    ∧ (ctx.have_file_size = true →
      (mtk_writer_close mtkSizeOff sha1 ctx file).2.1.file_size =
        ctx.file_size)
    ∧ (∀ g : MFile,
      (mtk_writer_close mtkSizeOff sha1
        (mtk_writer_close mtkSizeOff sha1 ctx file).2.1 g).2.1.file_size =
      (mtk_writer_close mtkSizeOff sha1 ctx file).2.1.file_size) := by
  have hmain : mtk_writer_close mtkSizeOff sha1 ctx file =
      (Ret.ok,
        { ctx with have_file_size := true,
                   file_size := if ctx.have_file_size then ctx.file_size
                     else file.pos },
        file) := by
    unfold mtk_writer_close
    simp only [hcur]
  refine ⟨hmain, ?_, ?_⟩
  · intro hhave
    rw [hmain]
    simp [hhave]
  · intro g
    rw [hmain]
    simp [mtk_writer_close, hcur]

/-- Witness for C9: a context whose current entry pointer still holds a
KERNEL entry; close is a no-op on the file and repeated closes keep the
first captured size. -/
theorem C9_close_pending_entry_frame_witness :
    mtk_writer_close 4 sha1stub
      { ctxC2x with cur := some ⟨EntryType.kernel, 0, 5, false⟩ }
      ⟨[3, 1, 4, 1, 5], 5⟩ =
    (Ret.ok,
      { ctxC2x with cur := some ⟨EntryType.kernel, 0, 5, false⟩,
                    have_file_size := true,
                    file_size := 5 },
      ⟨[3, 1, 4, 1, 5], 5⟩) := by
  have h := (C9_close_pending_entry_frame 4 sha1stub
    { ctxC2x with cur := some ⟨EntryType.kernel, 0, 5, false⟩ }
    ⟨[3, 1, 4, 1, 5], 5⟩ ⟨EntryType.kernel, 0, 5, false⟩ rfl).1
  simpa [ctxC2x] using h

end DBP
